import Mathlib

/-!
FlaskChat client, a shallow embedding of the conversation view-model of
static/script.js.  Observable DOM and script state is a record; each fetch
outcome the script can observe is a constructor of an oracle datatype; every
operation returns the new state together with the ordered list of network
calls it issued.
-/

/-- A rendered chat bubble: content plus sender tag, "user" or "model". -/
structure Message where
  content : String
  sender : String
deriving DecidableEq

/-- A sidebar link: conversation id, displayed title, and whether the link
carries the active class. -/
structure SidebarEntry where
  id : String
  title : String
  active : Bool
deriving DecidableEq

/-- One entry of the GET conversations list response. -/
structure Conv where
  id : String
  title : String
deriving DecidableEq

/-- The payload of a successful GET of one conversation. -/
structure ConvData where
  title : String
  messages : List Message
deriving DecidableEq

/-- The observable page state: chat box content, suggestion chips
visibility, displayed title, share and export control visibility, the
script variable currentConversationId, the browser url, the typing
indicator, the sidebar links, the share link input, the share modal, and
the alert dialogs raised so far. -/
structure UIState where
  chatBox : List Message
  suggestionsVisible : Bool
  chatTitle : String
  shareBtnVisible : Bool
  exportBtnVisible : Bool
  currentConversationId : Option String
  url : String
  typingVisible : Bool
  sidebar : List SidebarEntry
  shareLinkValue : String
  shareModalVisible : Bool
  alerts : List String
deriving DecidableEq

/-- The outcome of one fetch as the script observes it: fail is a rejected
fetch or a body whose json parse throws, errField is a parsed body whose
error field is set to a truthy value, ok is the parsed payload.  The catch
block sees the carried message in the two failing cases. -/
inductive Resp (α : Type) where
  | fail (msg : String)
  | errField (msg : String)
  | ok (v : α)
deriving DecidableEq

/-- The message the catch block receives, when the response is a failing
one. -/
def Resp.failMsg {α : Type} : Resp α → Option String
  | .fail m => some m
  | .errField m => some m
  | .ok _ => none

/-- The network calls the script can issue. -/
inductive NetCall where
  | newConversation
  | sendMsg (convId : String) (message : String)
  | getConversation (convId : String)
  | getConversations
  | share (convId : String)
deriving DecidableEq

/-- How many create-conversation calls a trace holds. -/
def countNew : List NetCall → Nat
  | [] => 0
  | c :: t => (if c = NetCall.newConversation then 1 else 0) + countNew t

/-- Truthiness of the nullable id as the script tests it: null and the
empty string are falsy, everything else truthy. -/
def jsFalsy : Option String → Bool
  | none => true
  | some s => decide (s = "")

/-- addMessageToUI: append one bubble to the chat box. -/
def addMessageToUI (s : UIState) (content sender : String) : UIState :=
  { s with chatBox := s.chatBox ++ [⟨content, sender⟩] }

/-- resetChatArea: clear the chat box, show the suggestion chips, reset the
title and hide the share and export controls. -/
def resetChatArea (s : UIState) : UIState :=
  { s with chatBox := [], suggestionsVisible := true, chatTitle := "New Chat",
           shareBtnVisible := false, exportBtnVisible := false }

/-- The sidebar links the loadConversationHistory loop builds: one link per
fetched entry, in fetched order, active exactly when the entry id equals
the current conversation id. -/
def renderedSidebar (cur : Option String) (convs : List Conv) : List SidebarEntry :=
  convs.map (fun c => ⟨c.id, c.title, decide (some c.id = cur)⟩)

/-- The displayed title after the loadConversationHistory loop: the loop
overwrites the title once per matching entry, so the last match wins and no
match leaves the old title. -/
def renderedTitle (cur : Option String) (convs : List Conv) (t0 : String) : String :=
  convs.foldl (fun t c => if some c.id = cur then c.title else t) t0

/-- loadConversationHistory: fetch the conversations list and rebuild the
sidebar.  On ok the rendered list is rebuilt from scratch, the old links
having been cleared first.  A throw of fetch or of the json parse happens
before the clear and leaves the old links.  A parsed body that is not an
array throws in the loop after the clear, leaving an empty list.  The
single source loop is split here into the rebuilt list and the final
title. -/
def loadConversationHistory (s : UIState) (r : Resp (List Conv)) :
    UIState × List NetCall :=
  match r with
  | .ok convs =>
      ({ s with sidebar := renderedSidebar s.currentConversationId convs,
                chatTitle := renderedTitle s.currentConversationId convs s.chatTitle },
       [NetCall.getConversations])
  | .fail _ => (s, [NetCall.getConversations])
  | .errField _ => ({ s with sidebar := [] }, [NetCall.getConversations])

/-- The responses available to one sendMessage run, one per fetch it may
issue: the create call, the history refresh after it, the send call, and
the history refresh after the reply. -/
structure SendOracle where
  createResp : Resp String
  historyAfterCreate : Resp (List Conv)
  sendResp : Resp String
  historyAfterSend : Resp (List Conv)

/-- The catch and finally blocks of sendMessage: render the inline error
bubble as a model message, then hide the typing indicator. -/
def sendCatch (s : UIState) (m : String) : UIState :=
  { addMessageToUI s ("Error: " ++ m) "model" with typingVisible := false }

/-- The tail of sendMessage from the send fetch on, given the conversation
id the script reads at that point: on ok render the reply and refresh the
history, otherwise run the catch block; the finally block hides the
indicator on every path. -/
def sendTail (s : UIState) (o : SendOracle) (message cid : String) :
    UIState × List NetCall :=
  match o.sendResp with
  | .ok reply =>
      let s1 := addMessageToUI s reply "model"
      let p := loadConversationHistory s1 o.historyAfterSend
      ({ p.1 with typingVisible := false }, NetCall.sendMsg cid message :: p.2)
  | .fail m => (sendCatch s m, [NetCall.sendMsg cid message])
  | .errField m => (sendCatch s m, [NetCall.sendMsg cid message])

/-- sendMessage: return at once on a falsy message; otherwise hide the
suggestions, render the user bubble, show the typing indicator, create a
conversation first when the current id is falsy, adopting the returned id,
pushing its url and refreshing the history, and then issue the send
fetch. -/
def sendMessage (s0 : UIState) (o : SendOracle) (message : String) :
    UIState × List NetCall :=
  if message = "" then (s0, [])
  else
    let s1 := addMessageToUI { s0 with suggestionsVisible := false } message "user"
    let s2 := { s1 with typingVisible := true }
    if jsFalsy s2.currentConversationId then
      match o.createResp with
      | .ok newId =>
          let s3 := { s2 with currentConversationId := some newId,
                              url := "/conversation/" ++ newId }
          let p := loadConversationHistory s3 o.historyAfterCreate
          let q := sendTail p.1 o message newId
          (q.1, NetCall.newConversation :: p.2 ++ q.2)
      | .fail m => (sendCatch s2 m, [NetCall.newConversation])
      | .errField m => (sendCatch s2 m, [NetCall.newConversation])
    else
      sendTail s2 o message (s2.currentConversationId.getD "")

/-- loadConversation: a falsy id resets to the new chat view, clears the
script id and pushes the root url without any fetch; otherwise fetch the
conversation and on ok rebuild the whole view, set the title, adopt the id,
reveal the share and export controls, push the url and toggle the active
class of every sidebar link on id equality; the catch path only resets the
chat area, leaving the script id and the url as they were. -/
def loadConversation (s : UIState) (r : Resp ConvData) (convId : Option String) :
    UIState × List NetCall :=
  if jsFalsy convId then
    ({ resetChatArea s with currentConversationId := none, url := "/" }, [])
  else
    let cid := convId.getD ""
    match r with
    | .ok d =>
        ({ s with chatBox := d.messages,
                  suggestionsVisible := false,
                  chatTitle := d.title,
                  currentConversationId := some cid,
                  shareBtnVisible := true,
                  exportBtnVisible := true,
                  url := "/conversation/" ++ cid,
                  sidebar := s.sidebar.map
                    (fun e => { e with active := decide (e.id = cid) }) },
         [NetCall.getConversation cid])
    | .fail _ => (resetChatArea s, [NetCall.getConversation cid])
    | .errField _ => (resetChatArea s, [NetCall.getConversation cid])

/-- handleShare: return at once on a falsy id; otherwise request the share
link and on ok fill the copyable input and open the modal, while any
failure raises a blocking alert and changes nothing else. -/
def handleShare (s : UIState) (r : Resp String) : UIState × List NetCall :=
  if jsFalsy s.currentConversationId then (s, [])
  else
    let cid := s.currentConversationId.getD ""
    match r with
    | .ok u =>
        ({ s with shareLinkValue := u, shareModalVisible := true },
         [NetCall.share cid])
    | .fail m =>
        ({ s with alerts := s.alerts ++ ["Could not share chat: " ++ m] },
         [NetCall.share cid])
    | .errField m =>
        ({ s with alerts := s.alerts ++ ["Could not share chat: " ++ m] },
         [NetCall.share cid])

/-- The literal the init regex scans for, as characters. -/
def convMarker : List Char := "/conversation/".toList

/-- One scan of the init regex over the path characters: at each position
try to match the marker followed by one or more digits, the capture being
the maximal digit run; on failure the engine retries at the next
position.  The pattern is not anchored. -/
def matchConvIdAux : List Char → Option (List Char)
  | [] => none
  | c :: rest =>
      if convMarker.isPrefixOf (c :: rest) then
        if ((c :: rest).drop convMarker.length).takeWhile Char.isDigit = []
        then matchConvIdAux rest
        else some (((c :: rest).drop convMarker.length).takeWhile Char.isDigit)
      else matchConvIdAux rest

/-- The conversation id that init adopts from the page path, if any;
init then calls loadConversation with it. -/
def initConvId (path : String) : Option String :=
  (matchConvIdAux path.toList).map String.mk

/-- A fresh page state: the new chat view with two sidebar entries. -/
def wState : UIState :=
  ⟨[], true, "New Chat", false, false, none, "/", false,
   [⟨"1", "alpha", false⟩, ⟨"2", "beta", false⟩], "", false, []⟩

/-- A page state displaying conversation 7. -/
def wStateActive : UIState :=
  { wState with currentConversationId := some "7", url := "/conversation/7",
                chatTitle := "Seventh", shareBtnVisible := true,
                exportBtnVisible := true, suggestionsVisible := false }

/-- An oracle whose calls all succeed. -/
def wOracleOk : SendOracle :=
  ⟨Resp.ok "9", Resp.ok [⟨"9", "New Chat"⟩], Resp.ok "hello",
   Resp.ok [⟨"9", "Greeting"⟩]⟩

/-- An oracle whose create call succeeds and whose send call fails. -/
def wOracleSendFail : SendOracle :=
  ⟨Resp.ok "9", Resp.ok [], Resp.fail "boom", Resp.ok []⟩

lemma loadConversationHistory_trace (s : UIState) (r : Resp (List Conv)) :
    (loadConversationHistory s r).2 = [NetCall.getConversations] := by
  cases r <;> rfl

lemma loadConversationHistory_id (s : UIState) (r : Resp (List Conv)) :
    (loadConversationHistory s r).1.currentConversationId =
      s.currentConversationId := by
  cases r <;> rfl

lemma countNew_append (t1 t2 : List NetCall) :
    countNew (t1 ++ t2) = countNew t1 + countNew t2 := by
  induction t1 with
  | nil => simp [countNew]
  | cons c t ih => simp [countNew, ih]; omega

lemma sendTail_countNew (s : UIState) (o : SendOracle) (message cid : String) :
    countNew (sendTail s o message cid).2 = 0 := by
  cases hr : o.sendResp <;>
    cases hh : o.historyAfterSend <;>
      simp [sendTail, loadConversationHistory, hr, hh, countNew]

lemma sendTail_sends (s : UIState) (o : SendOracle) (message cid : String) :
    ∀ c mm, NetCall.sendMsg c mm ∈ (sendTail s o message cid).2 →
      c = cid ∧ mm = message := by
  cases hr : o.sendResp <;>
    cases hh : o.historyAfterSend <;>
      simp [sendTail, loadConversationHistory, hr, hh]

lemma sendMessage_some_countNew (s : UIState) (o : SendOracle) (msg cid : String)
    (hmsg : msg ≠ "") (hid : s.currentConversationId = some cid) (hcid : cid ≠ "") :
    countNew (sendMessage s o msg).2 = 0 := by
  simp [sendMessage, addMessageToUI, jsFalsy, hmsg, hid, hcid]
  apply sendTail_countNew

lemma sendMessage_some_sends (s : UIState) (o : SendOracle) (msg cid : String)
    (hmsg : msg ≠ "") (hid : s.currentConversationId = some cid) (hcid : cid ≠ "") :
    ∀ c mm, NetCall.sendMsg c mm ∈ (sendMessage s o msg).2 →
      c = cid ∧ mm = msg := by
  simp [sendMessage, addMessageToUI, jsFalsy, hmsg, hid, hcid]
  apply sendTail_sends

lemma sendMessage_none_countNew (s : UIState) (o : SendOracle) (msg : String)
    (hmsg : msg ≠ "") (hid : s.currentConversationId = none) :
    countNew (sendMessage s o msg).2 = 1 := by
  cases hc : o.createResp with
  | ok nid =>
      simp [sendMessage, addMessageToUI, jsFalsy, hmsg, hid, hc, countNew,
            countNew_append, loadConversationHistory_trace, sendTail_countNew]
  | fail m =>
      simp [sendMessage, addMessageToUI, jsFalsy, hmsg, hid, hc, countNew]
  | errField m =>
      simp [sendMessage, addMessageToUI, jsFalsy, hmsg, hid, hc, countNew]

lemma sendMessage_none_head (s : UIState) (o : SendOracle) (msg : String)
    (hmsg : msg ≠ "") (hid : s.currentConversationId = none) :
    (sendMessage s o msg).2.head? = some NetCall.newConversation := by
  cases hc : o.createResp <;>
    simp [sendMessage, addMessageToUI, jsFalsy, hmsg, hid, hc]

lemma sendMessage_none_sends (s : UIState) (o : SendOracle) (msg : String)
    (hmsg : msg ≠ "") (hid : s.currentConversationId = none) :
    ∀ c mm, NetCall.sendMsg c mm ∈ (sendMessage s o msg).2 →
      o.createResp = Resp.ok c ∧ mm = msg := by
  cases hc : o.createResp with
  | ok nid =>
      intro c mm hm
      simp [sendMessage, addMessageToUI, jsFalsy, hmsg, hid, hc,
            List.mem_append, loadConversationHistory_trace] at hm
      have h2 := sendTail_sends _ o msg nid c mm hm
      exact ⟨by rw [h2.1], h2.2⟩
  | fail m =>
      intro c mm hm
      simp [sendMessage, addMessageToUI, jsFalsy, hmsg, hid, hc] at hm
  | errField m =>
      intro c mm hm
      simp [sendMessage, addMessageToUI, jsFalsy, hmsg, hid, hc] at hm

lemma sendMessage_created_id (s : UIState) (o : SendOracle) (msg nid : String)
    (hmsg : msg ≠ "") (hid : s.currentConversationId = none)
    (hc : o.createResp = Resp.ok nid) :
    (sendMessage s o msg).1.currentConversationId = some nid := by
  cases hs : o.sendResp <;> cases hh : o.historyAfterCreate <;>
    cases hh2 : o.historyAfterSend <;>
      simp [sendMessage, sendTail, sendCatch, addMessageToUI,
            loadConversationHistory, renderedSidebar, renderedTitle,
            jsFalsy, hmsg, hid, hc, hs, hh, hh2]

/-- C2 counterexample: a single space is whitespace-only but truthy, so
sendMessage is not a no-op on it: it issues network calls and changes the
visible state. -/
theorem sendMessage_whitespace_not_noop :
    (sendMessage wState wOracleOk " ").2 ≠ [] ∧
    (sendMessage wState wOracleOk " ").1 ≠ wState := by
  decide

/-- C2 (amended): only the empty string is guarded; for it sendMessage
issues zero network calls and mutates no visible state.  A non-empty
whitespace-only text proceeds as a normal send, the trim happening at the
form handler call site, not in sendMessage. -/
theorem sendMessage_empty_noop (s : UIState) (o : SendOracle) :
    sendMessage s o "" = (s, []) := by
  simp [sendMessage]

/-- C3: within one sendMessage call with non-empty text, a null id at entry
gives exactly one create call, which is issued first, and any send call in
the trace targets the id the create call returned; a truthy id at entry
gives zero create calls and any send call targets that id, so no send is
ever issued with an unestablished conversation id. -/
theorem sendMessage_create_before_send (s : UIState) (o : SendOracle)
    (msg : String) (hmsg : msg ≠ "") :
    (s.currentConversationId = none →
      countNew (sendMessage s o msg).2 = 1 ∧
      (sendMessage s o msg).2.head? = some NetCall.newConversation ∧
      ∀ c mm, NetCall.sendMsg c mm ∈ (sendMessage s o msg).2 →
        o.createResp = Resp.ok c ∧ mm = msg) ∧
    (∀ cid, s.currentConversationId = some cid → cid ≠ "" →
      countNew (sendMessage s o msg).2 = 0 ∧
      ∀ c mm, NetCall.sendMsg c mm ∈ (sendMessage s o msg).2 →
        c = cid ∧ mm = msg) :=
  ⟨fun hid => ⟨sendMessage_none_countNew s o msg hmsg hid,
               sendMessage_none_head s o msg hmsg hid,
               sendMessage_none_sends s o msg hmsg hid⟩,
   fun cid hid hcid => ⟨sendMessage_some_countNew s o msg cid hmsg hid hcid,
                        sendMessage_some_sends s o msg cid hmsg hid hcid⟩⟩

/-- C3 witness: a concrete run from a fresh state issues exactly one create
call and it comes first in the trace. -/
theorem sendMessage_create_before_send_w :
    countNew (sendMessage wState wOracleOk "Hello").2 = 1 ∧
    (sendMessage wState wOracleOk "Hello").2.head? =
      some NetCall.newConversation := by
  have h := (sendMessage_create_before_send wState wOracleOk "Hello"
      (by decide)).1 rfl
  exact ⟨h.1, h.2.1⟩

/-- C10: when the create call succeeded and the send call then failed, the
created id is retained, so a retry from the resulting state issues zero
create calls and targets the same conversation. -/
theorem sendMessage_retry_keeps_created_id (s : UIState) (o o2 : SendOracle)
    (msg msg2 nid m : String) (hmsg : msg ≠ "") (hmsg2 : msg2 ≠ "")
    (hid : s.currentConversationId = none) (hc : o.createResp = Resp.ok nid)
    (hnid : nid ≠ "") (_hf : o.sendResp.failMsg = some m) :
    (sendMessage s o msg).1.currentConversationId = some nid ∧
    countNew (sendMessage (sendMessage s o msg).1 o2 msg2).2 = 0 ∧
    ∀ c mm,
      NetCall.sendMsg c mm ∈ (sendMessage (sendMessage s o msg).1 o2 msg2).2 →
        c = nid ∧ mm = msg2 := by
  have h1 := sendMessage_created_id s o msg nid hmsg hid hc
  exact ⟨h1, sendMessage_some_countNew _ o2 msg2 nid hmsg2 h1 hnid,
         sendMessage_some_sends _ o2 msg2 nid hmsg2 h1 hnid⟩

/-- C10 witness: a concrete failed send right after creation keeps the
created id. -/
theorem sendMessage_retry_keeps_created_id_w :
    (sendMessage wState wOracleSendFail "Hi").1.currentConversationId =
      some "9" :=
  (sendMessage_retry_keeps_created_id wState wOracleSendFail wOracleOk
    "Hi" "Again" "9" "boom" (by decide) (by decide) rfl rfl (by decide) rfl).1

/-- C5: loadConversation on a null or empty id is idempotent and always
yields the empty new chat view: no messages, suggestions visible, title
New Chat, share and export controls hidden, null id, root url, and it
issues no fetch. -/
theorem loadConversation_null_idempotent (s : UIState) (r r2 : Resp ConvData)
    (convId : Option String) (h : jsFalsy convId = true) :
    (loadConversation (loadConversation s r convId).1 r2 convId).1 =
      (loadConversation s r convId).1 ∧
    (loadConversation s r convId).1.chatBox = [] ∧
    (loadConversation s r convId).1.suggestionsVisible = true ∧
    (loadConversation s r convId).1.chatTitle = "New Chat" ∧
    (loadConversation s r convId).1.shareBtnVisible = false ∧
    (loadConversation s r convId).1.exportBtnVisible = false ∧
    (loadConversation s r convId).1.currentConversationId = none ∧
    (loadConversation s r convId).1.url = "/" ∧
    (loadConversation s r convId).2 = [] := by
  simp [loadConversation, resetChatArea, h]

/-- C5 witness: a concrete double reset from an active state. -/
theorem loadConversation_null_idempotent_w :
    (loadConversation (loadConversation wStateActive (Resp.fail "x") none).1
        (Resp.fail "x") none).1 =
      (loadConversation wStateActive (Resp.fail "x") none).1 :=
  (loadConversation_null_idempotent wStateActive (Resp.fail "x") (Resp.fail "x")
    none rfl).1

/-- C8: handleShare is a no-op on a null id; with an active id it fills the
copyable input with the returned link and opens the modal on ok, and any
failure is surfaced only as a blocking alert, every other part of the
state, the chat area included, staying untouched. -/
theorem handleShare_guard_and_errors (s : UIState) (r : Resp String) :
    (s.currentConversationId = none → handleShare s r = (s, [])) ∧
    (∀ cid u, s.currentConversationId = some cid → cid ≠ "" → r = Resp.ok u →
      (handleShare s r).1 =
        { s with shareLinkValue := u, shareModalVisible := true } ∧
      (handleShare s r).2 = [NetCall.share cid]) ∧
    (∀ cid m, s.currentConversationId = some cid → cid ≠ "" →
      r.failMsg = some m →
      (handleShare s r).1 =
        { s with alerts := s.alerts ++ ["Could not share chat: " ++ m] } ∧
      (handleShare s r).2 = [NetCall.share cid]) := by
  refine ⟨fun hid => ?_, fun cid u hid hcid hr => ?_,
          fun cid m hid hcid hr => ?_⟩
  · simp [handleShare, jsFalsy, hid]
  · subst hr
    simp [handleShare, jsFalsy, hid, hcid]
  · cases r with
    | ok v => simp [Resp.failMsg] at hr
    | fail mm =>
        simp [Resp.failMsg] at hr
        subst hr
        simp [handleShare, jsFalsy, hid, hcid]
    | errField mm =>
        simp [Resp.failMsg] at hr
        subst hr
        simp [handleShare, jsFalsy, hid, hcid]

/-- C8 witness: a concrete failing share from an active state raises only
the alert. -/
theorem handleShare_guard_and_errors_w :
    (handleShare wStateActive (Resp.fail "oops")).1 =
      { wStateActive with
          alerts := wStateActive.alerts ++ ["Could not share chat: " ++ "oops"] } ∧
    (handleShare wStateActive (Resp.fail "oops")).2 = [NetCall.share "7"] :=
  (handleShare_guard_and_errors wStateActive (Resp.fail "oops")).2.2 "7" "oops"
    rfl (by decide) rfl

lemma renderedTitle_cons (cur : Option String) (x : Conv) (xs : List Conv)
    (t0 : String) :
    renderedTitle cur (x :: xs) t0 =
      renderedTitle cur xs (if some x.id = cur then x.title else t0) := rfl

lemma renderedTitle_no_match (cur : Option String) :
    ∀ (l : List Conv) (t0 : String), (∀ c ∈ l, ¬ (some c.id = cur)) →
      renderedTitle cur l t0 = t0 := by
  intro l
  induction l with
  | nil => intro t0 _; rfl
  | cons x xs ih =>
      intro t0 h
      rw [renderedTitle_cons, if_neg (h x (List.mem_cons_self x xs))]
      exact ih t0 (fun c hc => h c (List.mem_cons_of_mem x hc))

lemma renderedTitle_unique (cur : Option String) :
    ∀ (l : List Conv) (t0 : String) (c : Conv), c ∈ l → some c.id = cur →
      l.countP (fun c => decide (some c.id = cur)) = 1 →
      renderedTitle cur l t0 = c.title := by
  intro l
  induction l with
  | nil => intro t0 c hc; cases hc
  | cons x xs ih =>
      intro t0 c hc hmatch hcount
      rw [List.countP_cons] at hcount
      by_cases hx : some x.id = cur
      · simp [hx] at hcount
        rw [renderedTitle_cons, if_pos hx]
        rcases List.mem_cons.mp hc with rfl | hc2
        · exact renderedTitle_no_match cur xs c.title hcount
        · exact absurd hmatch (hcount c hc2)
      · rcases List.mem_cons.mp hc with rfl | hc2
        · exact absurd hmatch hx
        · rw [renderedTitle_cons, if_neg hx]
          apply ih t0 c hc2 hmatch
          simpa [hx] using hcount

/-- C6: loadConversationHistory on a fetched list fully replaces the
sidebar with exactly the fetched entries, in order, with no stale or
duplicate leftovers; every rendered link is active exactly when its id
matches the current conversation id, and when one fetched entry matches,
its title becomes the displayed chat title. -/
theorem loadConversationHistory_replaces (s : UIState) (convs : List Conv)
    (hone : convs.countP
        (fun c => decide (some c.id = s.currentConversationId)) ≤ 1) :
    ((loadConversationHistory s (Resp.ok convs)).1.sidebar.map
        (fun e => (e.id, e.title)) = convs.map (fun c => (c.id, c.title))) ∧
    (∀ e ∈ (loadConversationHistory s (Resp.ok convs)).1.sidebar,
        e.active = decide (some e.id = s.currentConversationId)) ∧
    (∀ c ∈ convs, some c.id = s.currentConversationId →
        (loadConversationHistory s (Resp.ok convs)).1.chatTitle = c.title) ∧
    (loadConversationHistory s (Resp.ok convs)).2 =
      [NetCall.getConversations] := by
  refine ⟨?_, ?_, ?_, rfl⟩
  · simp [loadConversationHistory, renderedSidebar, List.map_map,
          Function.comp]
  · intro e he
    simp [loadConversationHistory, renderedSidebar, List.mem_map] at he
    obtain ⟨x, _, rfl⟩ := he
    rfl
  · intro c hc hm
    have h1 : convs.countP
        (fun c => decide (some c.id = s.currentConversationId)) = 1 := by
      have hpos : 0 < convs.countP
          (fun c => decide (some c.id = s.currentConversationId)) :=
        List.countP_pos_iff.mpr ⟨c, hc, by simp [hm]⟩
      omega
    simpa [loadConversationHistory] using
      renderedTitle_unique s.currentConversationId convs s.chatTitle c hc hm h1

/-- C6 witness: a concrete refresh while conversation 7 is active adopts
the fetched matching title. -/
theorem loadConversationHistory_replaces_w :
    (loadConversationHistory wStateActive
        (Resp.ok [⟨"7", "Lucky"⟩, ⟨"8", "Eight"⟩])).1.chatTitle = "Lucky" :=
  (loadConversationHistory_replaces wStateActive
      [⟨"7", "Lucky"⟩, ⟨"8", "Eight"⟩] (by decide)).2.2.1
    ⟨"7", "Lucky"⟩ (by decide) rfl

/-- C4: loadConversation on a successful, error-free response renders
exactly the fetched messages in server order, marks active exactly the
sidebar entries whose id matches, hence exactly one when the sidebar holds
exactly one matching entry, and pushes the conversation url. -/
theorem loadConversation_success_renders (s : UIState) (d : ConvData)
    (cid : String) (hcid : cid ≠ "")
    (hone : s.sidebar.countP (fun e => decide (e.id = cid)) = 1) :
    (loadConversation s (Resp.ok d) (some cid)).1.chatBox = d.messages ∧
    (loadConversation s (Resp.ok d) (some cid)).1.sidebar.countP
        (fun e => e.active) = 1 ∧
    (∀ e ∈ (loadConversation s (Resp.ok d) (some cid)).1.sidebar,
        e.active = decide (e.id = cid)) ∧
    (loadConversation s (Resp.ok d) (some cid)).1.url =
      "/conversation/" ++ cid := by
  refine ⟨?_, ?_, ?_, ?_⟩
  · simp [loadConversation, jsFalsy, hcid]
  · simp only [loadConversation, jsFalsy, hcid]
    simp only [decide_eq_true_eq, decide_eq_false hcid, Bool.false_eq_true,
      if_false, List.countP_map]
    simpa [Function.comp] using hone
  · intro e he
    simp [loadConversation, jsFalsy, hcid, List.mem_map] at he
    obtain ⟨x, _, rfl⟩ := he
    rfl
  · simp [loadConversation, jsFalsy, hcid]

/-- C4 witness: loading conversation 2 with a two-entry sidebar leaves
exactly one active entry. -/
theorem loadConversation_success_renders_w :
    (loadConversation wStateActive (Resp.ok ⟨"Two", [⟨"hey", "user"⟩]⟩)
        (some "2")).1.sidebar.countP (fun e => e.active) = 1 :=
  (loadConversation_success_renders wStateActive ⟨"Two", [⟨"hey", "user"⟩]⟩
    "2" (by decide) (by decide)).2.1

/-- C1 counterexample: from a state displaying conversation 7, a failing
load of conversation 42 keeps the script id 7 and the old url, while
loadConversation null clears both, so the end states differ. -/
theorem loadConversation_failure_ne_loadNull :
    (loadConversation wStateActive (Resp.fail "boom") (some "42")).1 ≠
      (loadConversation wStateActive (Resp.fail "boom") none).1 := by
  decide

/-- C1 (amended): on a failing fetch, a malformed body or an error field,
loadConversation of a truthy id resets the chat area exactly as
loadConversation null does, message list, suggestions, title, share and
export controls, but the script conversation id and the browser url keep
their pre-call values instead of being cleared. -/
theorem loadConversation_failure_resets_view_keeps_id (s : UIState)
    (cid : String) (hcid : cid ≠ "") (r : Resp ConvData) (m : String)
    (hfail : r.failMsg = some m) (r2 : Resp ConvData) :
    (loadConversation s r (some cid)).1.chatBox =
      (loadConversation s r2 none).1.chatBox ∧
    (loadConversation s r (some cid)).1.suggestionsVisible =
      (loadConversation s r2 none).1.suggestionsVisible ∧
    (loadConversation s r (some cid)).1.chatTitle =
      (loadConversation s r2 none).1.chatTitle ∧
    (loadConversation s r (some cid)).1.shareBtnVisible =
      (loadConversation s r2 none).1.shareBtnVisible ∧
    (loadConversation s r (some cid)).1.exportBtnVisible =
      (loadConversation s r2 none).1.exportBtnVisible ∧
    (loadConversation s r (some cid)).1.currentConversationId =
      s.currentConversationId ∧
    (loadConversation s r (some cid)).1.url = s.url := by
  cases r with
  | ok v => simp [Resp.failMsg] at hfail
  | fail mm => simp [loadConversation, resetChatArea, jsFalsy, hcid]
  | errField mm => simp [loadConversation, resetChatArea, jsFalsy, hcid]

/-- C1 witness: a concrete failing load keeps the active id. -/
theorem loadConversation_failure_resets_view_keeps_id_w :
    (loadConversation wStateActive (Resp.fail "boom")
        (some "42")).1.currentConversationId =
      wStateActive.currentConversationId :=
  (loadConversation_failure_resets_view_keeps_id wStateActive "42" (by decide)
    (Resp.fail "boom") "boom" rfl (Resp.fail "boom")).2.2.2.2.2.1

lemma sendMessage_typing_off (s : UIState) (o : SendOracle) (msg : String)
    (hmsg : msg ≠ "") :
    (sendMessage s o msg).1.typingVisible = false := by
  cases hj : jsFalsy s.currentConversationId <;>
    cases hc : o.createResp <;> cases hs : o.sendResp <;>
      cases h1 : o.historyAfterCreate <;> cases h2 : o.historyAfterSend <;>
        simp [sendMessage, sendTail, sendCatch, addMessageToUI,
              loadConversationHistory, renderedSidebar, renderedTitle,
              hmsg, hj, hc, hs, h1, h2]

/-- C7: in every sendMessage run with non-empty text, the typing indicator
is hidden at the end of every path, success or failure, and a failure of
the create step or of the send step leaves the chat box equal to the old
content plus the user bubble plus exactly one inline error bubble rendered
as a model message. -/
theorem sendMessage_failure_single_error (s : UIState) (o : SendOracle)
    (msg : String) (hmsg : msg ≠ "") :
    (sendMessage s o msg).1.typingVisible = false ∧
    (∀ m, s.currentConversationId = none → o.createResp.failMsg = some m →
      (sendMessage s o msg).1.chatBox =
        s.chatBox ++ [⟨msg, "user"⟩, ⟨"Error: " ++ m, "model"⟩]) ∧
    (∀ m cid, s.currentConversationId = some cid → cid ≠ "" →
      o.sendResp.failMsg = some m →
      (sendMessage s o msg).1.chatBox =
        s.chatBox ++ [⟨msg, "user"⟩, ⟨"Error: " ++ m, "model"⟩]) ∧
    (∀ m nid, s.currentConversationId = none → o.createResp = Resp.ok nid →
      o.sendResp.failMsg = some m →
      (sendMessage s o msg).1.chatBox =
        s.chatBox ++ [⟨msg, "user"⟩, ⟨"Error: " ++ m, "model"⟩]) := by
  refine ⟨sendMessage_typing_off s o msg hmsg, ?_, ?_, ?_⟩
  · intro m hid hf
    cases hc : o.createResp with
    | ok v =>
        rw [hc] at hf
        simp [Resp.failMsg] at hf
    | fail mm =>
        rw [hc] at hf
        simp [Resp.failMsg] at hf
        subst hf
        simp [sendMessage, sendCatch, addMessageToUI, jsFalsy, hmsg, hid, hc]
    | errField mm =>
        rw [hc] at hf
        simp [Resp.failMsg] at hf
        subst hf
        simp [sendMessage, sendCatch, addMessageToUI, jsFalsy, hmsg, hid, hc]
  · intro m cid hid hcid hf
    cases hs : o.sendResp with
    | ok v =>
        rw [hs] at hf
        simp [Resp.failMsg] at hf
    | fail mm =>
        rw [hs] at hf
        simp [Resp.failMsg] at hf
        subst hf
        simp [sendMessage, sendTail, sendCatch, addMessageToUI, jsFalsy,
              hmsg, hid, hcid, hs]
    | errField mm =>
        rw [hs] at hf
        simp [Resp.failMsg] at hf
        subst hf
        simp [sendMessage, sendTail, sendCatch, addMessageToUI, jsFalsy,
              hmsg, hid, hcid, hs]
  · intro m nid hid hc hf
    cases hs : o.sendResp with
    | ok v =>
        rw [hs] at hf
        simp [Resp.failMsg] at hf
    | fail mm =>
        rw [hs] at hf
        simp [Resp.failMsg] at hf
        subst hf
        cases h1 : o.historyAfterCreate <;>
          simp [sendMessage, sendTail, sendCatch, addMessageToUI,
                loadConversationHistory, renderedSidebar, renderedTitle,
                jsFalsy, hmsg, hid, hc, hs, h1]
    | errField mm =>
        rw [hs] at hf
        simp [Resp.failMsg] at hf
        subst hf
        cases h1 : o.historyAfterCreate <;>
          simp [sendMessage, sendTail, sendCatch, addMessageToUI,
                loadConversationHistory, renderedSidebar, renderedTitle,
                jsFalsy, hmsg, hid, hc, hs, h1]

/-- C7 witness: a concrete failed send renders exactly one error bubble
and ends with the indicator hidden. -/
theorem sendMessage_failure_single_error_w :
    (sendMessage wState wOracleSendFail "Hi").1.typingVisible = false ∧
    (sendMessage wState wOracleSendFail "Hi").1.chatBox =
      wState.chatBox ++
        [⟨"Hi", "user"⟩, ⟨"Error: " ++ "boom", "model"⟩] := by
  have h := sendMessage_failure_single_error wState wOracleSendFail "Hi"
    (by decide)
  exact ⟨h.1, h.2.2.2 "boom" "9" rfl rfl rfl⟩

lemma matchConvIdAux_cons (c : Char) (rest : List Char) :
    matchConvIdAux (c :: rest) =
      if convMarker.isPrefixOf (c :: rest) then
        if ((c :: rest).drop convMarker.length).takeWhile Char.isDigit = []
        then matchConvIdAux rest
        else some (((c :: rest).drop convMarker.length).takeWhile Char.isDigit)
      else matchConvIdAux rest := rfl

lemma isPrefixOf_append_drop :
    ∀ (p l : List Char), p.isPrefixOf l = true → l = p ++ l.drop p.length := by
  intro p
  induction p with
  | nil => intro l _; rfl
  | cons a p ih =>
      intro l h
      cases l with
      | nil =>
          simp only [List.isPrefixOf] at h
          exact Bool.noConfusion h
      | cons b t =>
          simp only [List.isPrefixOf, Bool.and_eq_true, beq_iff_eq] at h
          obtain ⟨rfl, h2⟩ := h
          simp only [List.cons_append, List.length_cons, List.drop_succ_cons]
          exact congrArg (List.cons a) (ih t h2)

lemma takeWhile_append_all (p : Char → Bool) :
    ∀ (l1 l2 : List Char), l1.all p = true →
      (l1 ++ l2).takeWhile p = l1 ++ l2.takeWhile p := by
  intro l1
  induction l1 with
  | nil => simp
  | cons a l ih =>
      intro l2 h
      simp only [List.all_cons, Bool.and_eq_true] at h
      simp [List.takeWhile_cons, h.1, ih l2 h.2]

lemma takeWhile_all (p : Char → Bool) :
    ∀ l : List Char, ((l.takeWhile p).all p) = true := by
  intro l
  induction l with
  | nil => rfl
  | cons a t ih =>
      rw [List.takeWhile_cons]
      by_cases h : p a = true
      · rw [if_pos h]
        simp [List.all_cons, h, ih]
      · rw [if_neg h]
        rfl

lemma isPrefixOf_self_append :
    ∀ (p t : List Char), p.isPrefixOf (p ++ t) = true := by
  intro p
  induction p with
  | nil => intro t; simp only [List.isPrefixOf, List.nil_append]
  | cons a p ih =>
      intro t
      simp only [List.cons_append, List.isPrefixOf, beq_self_eq_true,
        Bool.true_and]
      exact ih t

lemma matchConvIdAux_ne_nil (l : List Char) (h : l ≠ []) :
    matchConvIdAux l =
      if convMarker.isPrefixOf l then
        if (l.drop convMarker.length).takeWhile Char.isDigit = []
        then matchConvIdAux l.tail
        else some ((l.drop convMarker.length).takeWhile Char.isDigit)
      else matchConvIdAux l.tail := by
  cases l with
  | nil => exact absurd rfl h
  | cons c rest => rw [matchConvIdAux_cons]; rfl

lemma matchConvIdAux_at_marker (t : List Char)
    (hne : t.takeWhile Char.isDigit ≠ []) :
    matchConvIdAux (convMarker ++ t) = some (t.takeWhile Char.isDigit) := by
  have hnil : convMarker ++ t ≠ [] := by
    intro hq
    exact absurd (List.append_eq_nil.mp hq).1 (by decide)
  rw [matchConvIdAux_ne_nil (convMarker ++ t) hnil,
      if_pos (isPrefixOf_self_append convMarker t), List.drop_left convMarker t,
      if_neg hne]

lemma matchConvIdAux_digits :
    ∀ (l ds : List Char), matchConvIdAux l = some ds →
      ds ≠ [] ∧ ds.all Char.isDigit = true ∧
      ∃ pre suf, l = pre ++ convMarker ++ ds ++ suf := by
  intro l
  induction l with
  | nil => intro ds h; simp [matchConvIdAux] at h
  | cons c rest ih =>
      intro ds h
      rw [matchConvIdAux_cons] at h
      by_cases hp : convMarker.isPrefixOf (c :: rest) = true
      · rw [if_pos hp] at h
        by_cases hd : ((c :: rest).drop convMarker.length).takeWhile
            Char.isDigit = []
        · rw [if_pos hd] at h
          obtain ⟨h1, h2, pre, suf, h3⟩ := ih ds h
          exact ⟨h1, h2, c :: pre, suf, by simp [h3]⟩
        · rw [if_neg hd] at h
          obtain rfl := Option.some.inj h
          have e1 : c :: rest = convMarker ++ (c :: rest).drop convMarker.length :=
            isPrefixOf_append_drop convMarker (c :: rest) hp
          refine ⟨hd, takeWhile_all Char.isDigit _, [],
            ((c :: rest).drop convMarker.length).dropWhile Char.isDigit, ?_⟩
          simpa [List.append_assoc, List.takeWhile_append_dropWhile] using e1
      · rw [if_neg hp] at h
        obtain ⟨h1, h2, pre, suf, h3⟩ := ih ds h
        exact ⟨h1, h2, c :: pre, suf, by simp [h3]⟩

/-- C9 (amended): the init regex is not anchored and does not require the
id to be purely numeric.  An id is adopted exactly when the path holds the
conversation marker followed by at least one digit somewhere: when the
marker with a nonempty digit run and a non-digit remainder starts the
path, the digit run is adopted even if non-digit characters follow it; and
every adopted id is a nonempty all-digit string that occurs in the path
right after the marker, so paths with no such occurrence fall back to the
null load. -/
theorem initConvId_unanchored :
    (∀ ds suf : List Char, ds ≠ [] → ds.all Char.isDigit = true →
      suf.takeWhile Char.isDigit = [] →
      initConvId (String.mk (convMarker ++ (ds ++ suf))) =
        some (String.mk ds)) ∧
    (∀ (path ds : String), initConvId path = some ds →
      ds.toList ≠ [] ∧ ds.toList.all Char.isDigit = true ∧
      ∃ pre suf, path.toList = pre ++ convMarker ++ ds.toList ++ suf) := by
  constructor
  · intro ds suf h1 h2 h3
    have htw : (ds ++ suf).takeWhile Char.isDigit = ds := by
      rw [takeWhile_append_all Char.isDigit ds suf h2, h3, List.append_nil]
    have hm : matchConvIdAux (convMarker ++ (ds ++ suf)) = some ds := by
      rw [matchConvIdAux_at_marker (ds ++ suf) (by rw [htw]; exact h1), htw]
    show (matchConvIdAux (convMarker ++ (ds ++ suf))).map String.mk =
      some (String.mk ds)
    rw [hm]
    rfl
  · intro path ds h
    unfold initConvId at h
    cases hm : matchConvIdAux path.toList with
    | none =>
        rw [hm] at h
        exact Option.noConfusion h
    | some l =>
        rw [hm] at h
        obtain ⟨h1, h2, pre, suf, h3⟩ := matchConvIdAux_digits path.toList l hm
        have hds : String.mk l = ds := Option.some.inj h
        subst hds
        exact ⟨h1, h2, pre, suf, h3⟩

/-- C9 witness: the path made of the marker, the digits 42 and the
remainder xy adopts exactly the id 42. -/
theorem initConvId_unanchored_w :
    initConvId (String.mk (convMarker ++ ("42".toList ++ "xy".toList))) =
      some (String.mk "42".toList) :=
  initConvId_unanchored.1 "42".toList "xy".toList (by decide) (by decide)
    (by decide)

/-- C9 counterexample: the path of conversation 12ab has a non-numeric id,
yet the unanchored match adopts the id 12 instead of falling back to the
null load. -/
theorem initConvId_nonnumeric_adopts :
    initConvId "/conversation/12ab" = some "12" ∧
    initConvId "/conversation/12ab" ≠ none := by
  constructor
  · decide
  · decide
